import Mathlib

/-!
Verification development for the pint rule linter.

This file gives a shallow embedding of the analyzer core described by the
repository specification: the parser line-range computation
(`internal/parser/models.go`) and the `promql/series` check
(`SeriesCheck.Check` and its helpers in the `checks` package), together
with theorems about the embedded definitions.

Modelling conventions:
* Go `time.Time` and `time.Duration` are modelled as `Int` nanoseconds
  (Go durations are int64 nanoseconds; `time.Time` comparisons are at
  nanosecond precision).  The Go zero `time.Time` is modelled as `0`.
* Go strings are Lean `String`s; problem texts are built by
  concatenation exactly as the `fmt.Sprintf` calls in the source do.
* Code of the repository that is not under `src/` (the `promapi`
  time-range algebra, the `comments` package, `output.HumanizeDuration`,
  `promText`, `textAndSeverityFromError`, the external PromQL matcher
  parser and duration parser) is modelled from the spec; each such
  definition carries a doc comment saying so.  External library code
  (the Prometheus `VectorSelector`/`Matcher` printers) is modelled after
  its documented behaviour.
-/

namespace Pint

/-- Problem severity, from the checks package: Information < Warning < Bug < Fatal. -/
inductive Severity where
  | information
  | warning
  | bug
  | fatal
deriving DecidableEq, Repr

/-- `parser.LineRange`: inclusive range of 1-based source lines. -/
structure LineRange where
  first : Int
  last : Int
deriving DecidableEq, Repr

/-- `checks.Problem`: one diagnostic. -/
structure Problem where
  lines : LineRange
  reporter : String
  text : String
  details : String
  severity : Severity
deriving DecidableEq, Repr

/-- Prometheus label matcher types (`labels.MatchType`). -/
inductive MatchType where
  | eq
  | neq
  | re
  | nre
deriving DecidableEq, Repr

/-- A Prometheus label matcher (`labels.Matcher`). -/
structure Matcher where
  name : String
  mtype : MatchType
  value : String
deriving DecidableEq, Repr

/-- A PromQL vector selector (`promParser.VectorSelector`); only the fields
the series check reads (name and matchers) are modelled. -/
structure VectorSelector where
  name : String
  labelMatchers : List Matcher
deriving DecidableEq, Repr

/-- `labels.MetricName`: the special label holding the metric name. -/
def metricNameLabel : String := "__name__"

/-- Rendering of a matcher operator, as in `labels.Matcher.String`. -/
def matcherOp : MatchType → String
  | .eq => "="
  | .neq => "!="
  | .re => "=~"
  | .nre => "!~"

/-- `labels.Matcher.String`: `name` + operator + quoted value.  Quote
escaping inside the value is not modelled (values used here contain no
quotes or backslashes). -/
def matcherToString (m : Matcher) : String :=
  m.name ++ matcherOp m.mtype ++ "\"" ++ m.value ++ "\""

/-- `promParser.VectorSelector.String`: the metric name followed by the
braced matcher list; an equality `__name__` matcher that repeats a
nonempty name is skipped. -/
def vsToString (v : VectorSelector) : String :=
  let ls := v.labelMatchers.filter fun m =>
    !(m.name == metricNameLabel && m.mtype == MatchType.eq && m.value == v.name
        && v.name != "")
  if ls.isEmpty then v.name
  else v.name ++ "\x7b" ++ String.intercalate "," (ls.map matcherToString) ++ "\x7d"

/-- Loop body of `stripLabels`: walk the matchers keeping only `__name__`
matchers, overwriting the name from each equality `__name__` matcher. -/
def stripLabelsAux (name : String) (acc : List Matcher) :
    List Matcher → String × List Matcher
  | [] => (name, acc)
  | lm :: rest =>
    if lm.name == metricNameLabel then
      stripLabelsAux (if lm.mtype == MatchType.eq then lm.value else name)
        (acc ++ [lm]) rest
    else
      stripLabelsAux name acc rest

/-- `stripLabels`: returns a copy of the selector retaining only the
`__name__` matchers, with `.Name` set from equality `__name__` matchers. -/
def stripLabels (selector : VectorSelector) : VectorSelector :=
  let r := stripLabelsAux selector.name [] selector.labelMatchers
  { name := r.1, labelMatchers := r.2 }

/-- `addNameSelectorIfNeeded`: when the inner selector has no name and no
`__name__` matcher, copy the `__name__` matchers of the outer selector. -/
def addNameSelectorIfNeeded (selector : VectorSelector) (matchers : List Matcher) :
    VectorSelector :=
  if selector.name != "" then selector
  else if selector.labelMatchers.any (fun lm => lm.name == metricNameLabel) then selector
  else { selector with
          labelMatchers :=
            selector.labelMatchers ++ matchers.filter fun lm => lm.name == metricNameLabel }

/-- The metric name of a selector as computed at the top of the per-selector
loop of `SeriesCheck.Check`: the selector name, or the value of the first
equality `__name__` matcher. -/
def metricNameOf (sel : VectorSelector) : String :=
  if sel.name != "" then sel.name
  else
    match sel.labelMatchers.find? (fun lm =>
        lm.name == metricNameLabel && lm.mtype == MatchType.eq) with
    | some lm => lm.value
    | none => ""

/-- The `alertname` computed by step 0 of `SeriesCheck.Check`: the value of
the last `alertname` matcher whose type is neither regexp nor
negative-regexp (the loop overwrites without breaking). -/
def alertnameOf (sel : VectorSelector) : String :=
  sel.labelMatchers.foldl
    (fun an lm =>
      if lm.name == "alertname" && lm.mtype != MatchType.re && lm.mtype != MatchType.nre
      then lm.value else an)
    ""

/-- `labelNames` computed by `SeriesCheck.Check`: label names of equality or
regexp matchers, excluding `__name__`, without duplicates, in order. -/
def labelNamesOf (sel : VectorSelector) : List String :=
  sel.labelMatchers.foldl
    (fun acc lm =>
      if lm.name == metricNameLabel then acc
      else if lm.mtype == MatchType.neq || lm.mtype == MatchType.nre then acc
      else if acc.contains lm.name then acc
      else acc ++ [lm.name])
    []

/-! ## Parser model (`internal/parser/models.go`) -/

/-- yaml scalar style, as far as `nodeLines` distinguishes it
(`yaml.LiteralStyle`, `yaml.FoldedStyle`, anything else). -/
inductive YamlStyle where
  | literalStyle
  | foldedStyle
  | otherStyle
deriving DecidableEq, Repr

/-- The fields of a `yaml.Node` read by `nodeLines`. -/
structure GoYamlNode where
  line : Int
  style : YamlStyle
  value : String
deriving DecidableEq, Repr

/-- `strings.TrimSuffix(v, "\n")`: drop at most one trailing newline. -/
def trimSuffixNewline (s : String) : String :=
  if s.endsWith "\n" then s.dropRight 1 else s

/-- Number of newline characters in a string.  In the source the last line
is computed as `len(strings.Split(v, "\n")) - 1`, which equals the number
of `'\n'` characters of `v`. -/
def newlineCount (s : String) : Nat :=
  s.data.count '\n'

/-- `parser.nodeLines`: the line range of a scalar node.  The source
orders its switch as: empty value first, then literal/folded style, then
the default. -/
def nodeLines (node : GoYamlNode) (offset : Int) : LineRange :=
  let first :=
    if node.value = "" then node.line + offset
    else if node.style = YamlStyle.literalStyle ∨ node.style = YamlStyle.foldedStyle then
      node.line + 1 + offset
    else node.line + offset
  { first := first, last := first + (newlineCount (trimSuffixNewline node.value) : Int) }

/-- A yaml scalar node as kept on rules (`parser.YamlNode`): dereferenced
value plus line range. -/
structure YamlNodeM where
  value : String
  lines : LineRange
deriving DecidableEq, Repr

/-- `parser.PromQLNode`: an AST node; `selfSelector` is `some v` when the
wrapped `promParser` node is a `*VectorSelector` with the given name and
matchers. -/
inductive PromQLNode where
  | mk : Option VectorSelector → List PromQLNode → PromQLNode
deriving Repr

/-- `parser.PromQLExpr`: the raw expression node, the syntax error when
parsing failed, and the parsed root. -/
structure PromQLExpr where
  value : YamlNodeM
  syntaxError : Option String
  query : PromQLNode
deriving Repr

/-- Comment directives attached to a rule, modelled from the spec (§4.2):
the `comments` package is not under `src/`.  Only the variants read by the
series check are distinguished. -/
inductive Comment where
  | disableComment (matchStr : String)
  | ruleSetComment (value : String)
  | otherComment
deriving DecidableEq, Repr

/-- `comments.Only[comments.Disable]`: the match strings of disable comments. -/
def onlyDisable (cs : List Comment) : List String :=
  cs.filterMap fun c =>
    match c with
    | .disableComment m => some m
    | _ => none

/-- `comments.Only[comments.RuleSet]`: the values of rule-set comments. -/
def onlyRuleSet (cs : List Comment) : List String :=
  cs.filterMap fun c =>
    match c with
    | .ruleSetComment v => some v
    | _ => none

/-- `parser.AlertingRule`; fields not read by the series check are omitted. -/
structure AlertingRuleM where
  alert : YamlNodeM
  expr : PromQLExpr
deriving Repr

/-- `parser.RecordingRule`; fields not read by the series check are omitted. -/
structure RecordingRuleM where
  record : YamlNodeM
  expr : PromQLExpr
deriving Repr

/-- `parser.Rule`: a discriminated alerting/recording/invalid rule.
`error` models `Rule.Error.Err` (`none` when the rule parsed). -/
structure Rule where
  alertingRule : Option AlertingRuleM
  recordingRule : Option RecordingRuleM
  error : Option String
  comments : List Comment
  lines : LineRange
deriving Repr

/-- `Rule.Expr`.  For an invalid rule the Go method would dereference a nil
pointer; the check is only dispatched on parsed rules, and the fallback
value here carries a syntax error so the check is a no-op on it. -/
def ruleExpr (r : Rule) : PromQLExpr :=
  match r.recordingRule with
  | some rr => rr.expr
  | none =>
    match r.alertingRule with
    | some ar => ar.expr
    | none =>
      { value := { value := "", lines := { first := 0, last := 0 } },
        syntaxError := some "missing rule body",
        query := .mk none [] }

/-- `discovery.Entry`, restricted to the fields the series check reads. -/
structure Entry where
  rule : Rule
  sourcePath : String
deriving Repr

mutual

/-- `getSelectors`: pre-order walk collecting offset-less copies of every
vector selector of the expression tree. -/
def getSelectors : PromQLNode → List VectorSelector
  | .mk s cs =>
    (match s with
     | some v => [{ name := v.name, labelMatchers := v.labelMatchers }]
     | none => []) ++ getSelectorsList cs

/-- The child walk of `getSelectors`. -/
def getSelectorsList : List PromQLNode → List VectorSelector
  | [] => []
  | c :: cs => getSelectors c ++ getSelectorsList cs

end

/-! ## promapi model

The `promapi` package is not under `src/`; its time-range algebra is
modelled from the spec (§4.4) and its failover-group contract from §6.
Times and durations are `Int` nanoseconds.
-/

/-- `promapi.MetricTimeRange`, restricted to start and end time (the
fingerprint and label set are never read by the series check). -/
structure MetricTimeRange where
  start : Int
  stop : Int
deriving DecidableEq, Repr

/-- One nanosecond short of nothing: Go `time.Second` in nanoseconds. -/
def nsPerSecond : Int := 1000000000

/-- Modelled from the spec: `overlaps(a, b, step)` — true iff the two
ranges share any point, treating ranges as closed modulo step tolerance
(a separation of less than one step is not a gap). -/
def overlapsB (a b : MetricTimeRange) (step : Int) : Bool :=
  a.start ≤ b.stop + step && b.start ≤ a.stop + step

/-- Intersection of a range with the closed window `[lo, hi]`, as the list
of its nonempty part. -/
def rangeClamp (u : MetricTimeRange) (lo hi : Int) : List MetricTimeRange :=
  let s := max u.start lo
  let e := min u.stop hi
  if s < e then [{ start := s, stop := e }] else []

/-- Interval difference `x \ r` (at most two pieces). -/
def subtractOne (x r : MetricTimeRange) : List MetricTimeRange :=
  (if x.start < min x.stop r.start then
     [{ start := x.start, stop := min x.stop r.start }] else []) ++
  (if max x.start r.stop < x.stop then
     [{ start := max x.start r.stop, stop := x.stop }] else [])

/-- Subtract every range of `rs` from every piece of `xs`. -/
def subtractRanges (xs rs : List MetricTimeRange) : List MetricTimeRange :=
  rs.foldl (fun acc r => acc.flatMap fun x => subtractOne x r) xs

/-- Modelled from the spec: `find_gaps(self, uptime, from, until)` —
within `[from, until]` the intervals where `uptime` has coverage but
`self` does not. -/
def findGaps (self uptime : List MetricTimeRange) (lo hi : Int) :
    List MetricTimeRange :=
  uptime.flatMap fun u => subtractRanges (rangeClamp u lo hi) self

/-- `promapi.SeriesTimeRanges` together with the `URI` of the
`RangeQueryResult` that carried it. -/
structure SeriesTimeRanges where
  fromT : Int
  untilT : Int
  stepDur : Int
  ranges : List MetricTimeRange
  gaps : List MetricTimeRange
  uri : String
deriving DecidableEq, Repr

/-- Query errors, modelled from the spec (§7): `Timeout`,
`ConnectionRefused`, `BadData`, `Unknown`. -/
inductive QueryError where
  | connectionRefused
  | timeout
  | badData
  | unknown
deriving DecidableEq, Repr

/-- An instant-query result: the sample values and the responding URI. -/
structure QueryResult where
  samples : List Int
  uri : String
deriving DecidableEq, Repr

/-- A range-query result: the merged time ranges and the responding URI. -/
structure RangeResult where
  ranges : List MetricTimeRange
  uri : String
deriving DecidableEq, Repr

/-- The failover-group contract consumed by the check (spec §6), plus the
external pure helpers the check calls that live outside `src/`:
`promParser.ParseMetricSelector` and `model.ParseDuration` (the error
value is the message used in the warning problem). -/
structure PromEnv where
  name : String
  uptimeMetric : String
  now : Int
  query : String → Except QueryError QueryResult
  rangeQuery : String → Except QueryError RangeResult
  checkOtherServer : String → String
  parseMetricSelector : String → Option (List Matcher)
  parseDuration : String → Except String Int

/-- `PromqlSeriesSettings` after `Validate`: the lookback range and step
as durations, plus the compiled ignore regexes (pattern text and its
anchored match predicate). -/
structure IgnoreRe where
  pattern : String
  reMatch : String → Bool

/-- Validated settings of the series check. -/
structure PromqlSeriesSettings where
  lookbackRange : Int
  lookbackStep : Int
  ignoreMetricsRe : List IgnoreRe

/-- The defaults set by `Validate`: 7 days lookback at 5 minute step,
no ignore patterns. -/
def defaultSettings : PromqlSeriesSettings :=
  { lookbackRange := 604800000000000
    lookbackStep := 300000000000
    ignoreMetricsRe := [] }

/-! ## Series check helpers (`checks` package) -/

/-- `SeriesCheckName`. -/
def SeriesCheckName : String := "promql/series"

/-- `SeriesCheckRuleDetails` (the source string, with its newlines). -/
def SeriesCheckRuleDetails : String :=
  "This usually means that you're deploying a set of rules where one is using the metric produced by another rule.\nTo avoid false positives pint won't run series checks here but that doesn't guarantee that there are no problems here.\nTo fully validate your changes it's best to first deploy the rules that generate the time series needed by other rules.\n[Click here](https://cloudflare.github.io/pint/checks/promql/series.html#your-query-is-using-recording-rules) for more details.\n"

/-- `SeriesCheckCommonProblemDetails`. -/
def SeriesCheckCommonProblemDetails : String :=
  "[Click here](https://cloudflare.github.io/pint/checks/promql/series.html#common-problems) to see a list of common problems that might cause this."

/-- `SeriesCheckMinAgeDetails`. -/
def SeriesCheckMinAgeDetails : String :=
  "You have a comment that tells pint how long can a metric be missing before it warns you about it but this comment is not formatted correctly.\n[Click here](https://cloudflare.github.io/pint/checks/promql/series.html#min-age) to see supported syntax."

/-- `avgLife`: the summed `(end - start + 1s)` over the ranges, divided by
the count after truncating to whole seconds (`int(d.Seconds())` and Go
integer division both truncate toward zero, modelled by `Int.tdiv`),
rescaled to nanoseconds; zero for the empty list. -/
def avgLife (ranges : List MetricTimeRange) : Int :=
  let d := ranges.foldl (fun a r => a + (r.stop - r.start + nsPerSecond)) 0
  if ranges.length = 0 then 0
  else nsPerSecond * ((Int.tdiv d nsPerSecond).tdiv (Int.ofNat ranges.length))

/-- `oldest`: minimum range start, computed with the Go zero-time sentinel
(the zero `time.Time` is modelled as `0`). -/
def oldest (ranges : List MetricTimeRange) : Int :=
  ranges.foldl (fun ts r => if ts = 0 ∨ r.start < ts then r.start else ts) 0

/-- `newest`: maximum range end, computed with the Go zero-time sentinel. -/
def newest (ranges : List MetricTimeRange) : Int :=
  ranges.foldl (fun ts r => if ts = 0 ∨ ts < r.stop then r.stop else ts) 0

/-- Modelled from the spec: `output.HumanizeDuration` is outside `src/` and
the spec does not pin its format; whole seconds are rendered. -/
def humanizeDuration (d : Int) : String :=
  toString (Int.tdiv d nsPerSecond) ++ "s"

/-- Go `time.Duration.Round`: round to the nearest multiple of `m`,
ties away from zero. -/
def goRound (d m : Int) : Int :=
  if m ≤ 0 then d
  else
    let r := Int.tmod d m
    if d < 0 then
      if (-r) + (-r) < m then d - r else d - r - m
    else
      if r + r < m then d - r else d - r + m

/-- `sinceDesc`: humanized time since `t`, rounded to hours past one day
and to minutes otherwise. -/
def sinceDesc (env : PromEnv) (t : Int) : String :=
  let dur := env.now - t
  if 86400000000000 < dur then humanizeDuration (goRound dur 3600000000000)
  else humanizeDuration (goRound dur 60000000000)

/-- Modelled from the spec: `promText` is outside `src/`; it renders the
server name and responding URI as used in problem texts (cf. the
`Prometheus server at` texts of the test helpers in `src/`). -/
def promText (name uri : String) : String :=
  "`" ++ name ++ "` Prometheus server at " ++ uri

/-- Modelled from the spec (§7, §4.5 step 1): `textAndSeverityFromError`
is outside `src/`.  Severity by error class: connection refused ⇒
Warning; timeout, bad data and unknown errors ⇒ the given severity
(`Bug` at every call site of the series check). -/
def textAndSeverityFromError (env : PromEnv) (e : QueryError) : String × Severity :=
  match e with
  | .connectionRefused =>
    ("couldn't run some online checks due to `" ++ env.name ++ "` connection error: connection refused.", .warning)
  | .timeout =>
    ("couldn't run some online checks due to `" ++ env.name ++ "` connection error: connection timeout.", .bug)
  | .badData =>
    ("`" ++ env.name ++ "` failed with: bad_data: bad input data.", .bug)
  | .unknown =>
    ("`" ++ env.name ++ "` failed with an unknown error.", .bug)

/-- `SeriesCheck.queryProblem`: a problem on the expression lines from a
query error; its `Details` field is left empty. -/
def queryProblem (env : PromEnv) (e : QueryError) (expr : PromQLExpr) : Problem :=
  { lines := expr.value.lines
    reporter := SeriesCheckName
    text := (textAndSeverityFromError env e).1
    details := ""
    severity := (textAndSeverityFromError env e).2 }

/-- `SeriesCheck.textAndSeverity`: floor the severity to Warning and
annotate the text when the metric name matches an ignore regexp (the
first matching pattern wins, as in the source loop's early return). -/
def textAndSeverity (settings : PromqlSeriesSettings) (name text : String)
    (s : Severity) : String × Severity :=
  match settings.ignoreMetricsRe.find? (fun re => name != "" && re.reMatch name) with
  | some re =>
    (text ++ " Metric name `" ++ name ++ "` matches `" ++ SeriesCheckName ++
       "` check ignore regexp `" ++ re.pattern ++ "`.", .warning)
  | none => (text, s)

/-- The three rule-set comment prefixes recognised by `getMinAge`. -/
def minAgePrefixes (sel : VectorSelector) : List String :=
  [SeriesCheckName ++ " min-age ",
   SeriesCheckName ++ "(" ++ vsToString (stripLabels sel) ++ ") min-age ",
   SeriesCheckName ++ "(" ++ vsToString sel ++ ") min-age "]

/-- The warning emitted by `getMinAge` on an unparsable duration. -/
def minAgeParseProblem (rule : Rule) (msg : String) : Problem :=
  { lines := rule.lines
    reporter := SeriesCheckName
    text := "Failed to parse pint comment as duration: " ++ msg
    details := SeriesCheckMinAgeDetails
    severity := .warning }

/-- `SeriesCheck.getMinAge`: scan rule-set comments for `min-age`
directives; default two hours; malformed durations append a warning
without aborting, well-formed ones overwrite the minimum age. -/
def getMinAge (env : PromEnv) (rule : Rule) (sel : VectorSelector) :
    Int × List Problem :=
  (onlyRuleSet rule.comments).foldl
    (fun st v =>
      (minAgePrefixes sel).foldl
        (fun st pre =>
          if v.startsWith pre then
            match env.parseDuration (v.drop pre.length) with
            | .error msg => (st.1, st.2 ++ [minAgeParseProblem rule msg])
            | .ok d => (d, st.2)
          else st)
        st)
    (7200000000000, [])

/-- `SeriesCheck.isLabelValueIgnored`: a rule-set comment matching one of
the three `ignore/label-value` forms disables the per-matcher probe. -/
def isLabelValueIgnored (rule : Rule) (sel : VectorSelector) (labelName : String) :
    Bool :=
  let values :=
    [SeriesCheckName ++ " ignore/label-value " ++ labelName,
     SeriesCheckName ++ "(" ++ vsToString (stripLabels sel) ++ ") ignore/label-value " ++ labelName,
     SeriesCheckName ++ "(" ++ vsToString sel ++ ") ignore/label-value " ++ labelName]
  (onlyRuleSet rule.comments).any fun v => values.contains v

/-- `isDisabled`: a `disable promql/series(...)` comment matches the
selector by full string, by bare name, or when every matcher of the
parsed form has an identical matcher on the selector. -/
def isDisabled (env : PromEnv) (rule : Rule) (sel : VectorSelector) : Bool :=
  (onlyDisable rule.comments).any fun d =>
    if d.startsWith (SeriesCheckName ++ "(") && d.endsWith ")" then
      let cs := (d.drop (SeriesCheckName ++ "(").length).dropRight 1
      if cs == vsToString sel || cs == sel.name then true
      else
        match env.parseMetricSelector cs with
        | none => false
        | some ms =>
          ms.all fun l =>
            sel.labelMatchers.any fun s =>
              s.mtype == l.mtype && s.name == l.name && s.value == l.value
    else false

/-! ## The series check (`SeriesCheck.Check`)

The per-selector loop body is split into one definition per decision
point; each returns the accumulated problem list for the whole rule plus
the log of query strings issued so far (the log makes "no queries were
issued" provable; the Go code has no such log, it is observational
instrumentation only and every query string is appended exactly where the
source issues the query).
-/

/-- The instant presence-probe query of step 1, and the range query of the
base-metric / per-matcher probes. -/
def countQuery (sel : VectorSelector) : String :=
  "count(" ++ vsToString sel ++ ")"

/-- The uptime-metric range query of step 2. -/
def uptimeQuery (env : PromEnv) : String :=
  "count(" ++ env.uptimeMetric ++ ")"

/-- The `absent(...)` range query of the required-label step. -/
def absentQuery (sel : VectorSelector) : String :=
  "absent(" ++ vsToString sel ++ ")"

/-- `instantSeriesCount`: sum of the sample values. -/
def sampleSum (samples : List Int) : Int :=
  samples.foldl (fun a v => a + v) 0

/-- Build the `SeriesTimeRanges` of a range-query result: `From`/`Until`/
`Step` come from the relative range parameters (`now - lookbackRange` to
`now` at `lookbackStep`), gaps start empty. -/
def mkSeries (env : PromEnv) (settings : PromqlSeriesSettings)
    (ranges : List MetricTimeRange) (uri : String) : SeriesTimeRanges :=
  { fromT := env.now - settings.lookbackRange
    untilT := env.now
    stepDur := settings.lookbackStep
    ranges := ranges
    gaps := []
    uri := uri }

/-- `FindGaps` applied to a series against the uptime series over the
series' own window. -/
def withGaps (s : SeriesTimeRanges) (uptime : SeriesTimeRanges) : SeriesTimeRanges :=
  { s with gaps := findGaps s.ranges uptime.ranges s.fromT s.untilT }

/-- The synthetic always-up uptime series substituted when the uptime
probe fails or returns no ranges. -/
def dummyUptime (env : PromEnv) (settings : PromqlSeriesSettings) : SeriesTimeRanges :=
  { fromT := env.now - settings.lookbackRange
    untilT := env.now
    stepDur := settings.lookbackStep
    ranges := [{ start := env.now - settings.lookbackRange, stop := env.now }]
    gaps := []
    uri := "" }

/-- Step 2: fetch the uptime metric ranges, substituting the synthetic
series on error or empty response. -/
def fetchUptime (env : PromEnv) (settings : PromqlSeriesSettings) : SeriesTimeRanges :=
  match env.rangeQuery (uptimeQuery env) with
  | .error _ => dummyUptime env settings
  | .ok r =>
    if r.ranges.isEmpty then dummyUptime env settings
    else mkSeries env settings r.ranges r.uri

/-- The first sibling entry that is a parsed alerting rule with the given
alert name. -/
def findAlertingEntry (entries : List Entry) (an : String) : Option Entry :=
  entries.find? fun e =>
    match e.rule.alertingRule with
    | some ar => e.rule.error == none && ar.alert.value == an
    | none => false

/-- The first sibling entry that is a parsed recording rule whose record
value equals the rendering of the bare selector. -/
def findRecordingEntry (entries : List Entry) (bare : VectorSelector) : Option Entry :=
  entries.find? fun e =>
    match e.rule.recordingRule with
    | some rr => e.rule.error == none && rr.record.value == vsToString bare
    | none => false

/-- The Bug text of the ALERTS special case. -/
def alertsProblemText (sel : VectorSelector) (an : String) : String :=
  "`" ++ vsToString sel ++ "` metric is generated by alerts but didn't found any rule named `" ++ an ++ "`."

/-- The Bug of the ALERTS special case. -/
def alertsProblem (expr : PromQLExpr) (sel : VectorSelector) (an : String) : Problem :=
  { lines := expr.value.lines
    reporter := SeriesCheckName
    text := alertsProblemText sel an
    details := SeriesCheckCommonProblemDetails
    severity := .bug }

/-- Step 0: the ALERTS / ALERTS_FOR_STATE special case; always ends the
selector (no queries are issued). -/
def alertsCase (_env : PromEnv) (rule : Rule) (entries : List Entry)
    (sel : VectorSelector) (problems : List Problem) (log : List String) :
    List Problem × List String :=
  let an := alertnameOf sel
  if an = "" then (problems, log)
  else
    match findAlertingEntry entries an with
    | some _ => (problems, log)
    | none => (problems ++ [alertsProblem (ruleExpr rule) sel an], log)

/-- The Information problem emitted when a sibling recording rule provides
the missing base metric. -/
def recRuleProblem (env : PromEnv) (expr : PromQLExpr) (bare : VectorSelector)
    (trs : SeriesTimeRanges) : Problem :=
  { lines := expr.value.lines
    reporter := SeriesCheckName
    text := promText env.name trs.uri ++ " didn't have any series for `" ++
      vsToString bare ++ "` metric in the last " ++ sinceDesc env trs.fromT ++
      " but found recording rule that generates it, skipping further checks."
    details := SeriesCheckRuleDetails
    severity := .information }

/-- The Bug emitted when the base metric never had any series. -/
def baseMissingProblem (env : PromEnv) (settings : PromqlSeriesSettings)
    (expr : PromQLExpr) (sel bare : VectorSelector) (trs : SeriesTimeRanges) : Problem :=
  let ts := textAndSeverity settings (vsToString bare)
    (promText env.name trs.uri ++ " didn't have any series for `" ++
      vsToString bare ++ "` metric in the last " ++ sinceDesc env trs.fromT ++ ".")
    .bug
  { lines := expr.value.lines
    reporter := SeriesCheckName
    text := ts.1
    details := env.checkOtherServer (vsToString sel)
    severity := ts.2 }

/-- Step 3 tail: the base metric has no historical ranges. -/
def baseMissingCase (env : PromEnv) (settings : PromqlSeriesSettings) (rule : Rule)
    (entries : List Entry) (sel : VectorSelector) (trs : SeriesTimeRanges)
    (problems : List Problem) (log : List String) : List Problem × List String :=
  match findRecordingEntry entries (stripLabels sel) with
  | some _ => (problems ++ [recRuleProblem env (ruleExpr rule) (stripLabels sel) trs], log)
  | none =>
    (problems ++ [baseMissingProblem env settings (ruleExpr rule) sel (stripLabels sel) trs], log)

/-- The required-label selector `bare(S){name=~".+"}` of step 4. -/
def labelAbsentSelector (sel : VectorSelector) (name : String) : VectorSelector :=
  let l := stripLabels sel
  { l with labelMatchers := l.labelMatchers ++ [{ name := name, mtype := .re, value := ".+" }] }

/-- The Bug of step 4: the base metric exists but never with this label. -/
def labelMissingProblem (env : PromEnv) (expr : PromQLExpr) (bare : VectorSelector)
    (name : String) (lc : SeriesTimeRanges) : Problem :=
  { lines := expr.value.lines
    reporter := SeriesCheckName
    text := promText env.name lc.uri ++ " has `" ++ vsToString bare ++
      "` metric but there are no series with `" ++ name ++ "` label in the last " ++
      sinceDesc env lc.fromT ++ "."
    details := SeriesCheckCommonProblemDetails
    severity := .bug }

/-- `isAbsentInsideSeriesRange`: some absent-series range overlaps some
base-metric range. -/
def absentInsideSeries (lc trs : SeriesTimeRanges) : Bool :=
  lc.ranges.any fun lr => trs.ranges.any fun str => overlapsB lr str lc.stepDur

/-- One iteration of the required-label loop of step 4. -/
def labelHistoryOne (env : PromEnv) (settings : PromqlSeriesSettings) (rule : Rule)
    (sel : VectorSelector) (trs promUptime : SeriesTimeRanges)
    (st : List Problem × List String) (name : String) : List Problem × List String :=
  let l := labelAbsentSelector sel name
  let log := st.2 ++ [absentQuery l]
  match env.rangeQuery (absentQuery l) with
  | .error e => (st.1 ++ [queryProblem env e (ruleExpr rule)], log)
  | .ok rr =>
    let lc := withGaps (mkSeries env settings rr.ranges rr.uri) promUptime
    if absentInsideSeries lc trs then
      if lc.ranges.length = 1 ∧ lc.gaps.isEmpty then
        (st.1 ++ [labelMissingProblem env (ruleExpr rule) (stripLabels sel) name lc], log)
      else (st.1, log)
    else (st.1, log)

/-- Step 4: the required-label history loop over `labelNames`. -/
def labelHistoryStep (env : PromEnv) (settings : PromqlSeriesSettings) (rule : Rule)
    (sel : VectorSelector) (trs promUptime : SeriesTimeRanges)
    (problems : List Problem) (log : List String) : List Problem × List String :=
  (labelNamesOf sel).foldl (labelHistoryOne env settings rule sel trs promUptime)
    (problems, log)

/-- The Bug of step 5: the base metric disappeared for longer than min-age. -/
def disappearedProblem (env : PromEnv) (settings : PromqlSeriesSettings)
    (expr : PromQLExpr) (bare : VectorSelector) (trs : SeriesTimeRanges) : Problem :=
  let ts := textAndSeverity settings (vsToString bare)
    (promText env.name trs.uri ++ " doesn't currently have `" ++ vsToString bare ++
      "`, it was last present " ++ sinceDesc env (newest trs.ranges) ++ " ago.")
    .bug
  { lines := expr.value.lines
    reporter := SeriesCheckName
    text := ts.1
    details := SeriesCheckCommonProblemDetails
    severity := ts.2 }

/-- The guard of step 5: exactly one base range, starting no later than
one step after the window start, ending more than one step before the
window end. -/
def disappearedCond (settings : PromqlSeriesSettings) (trs : SeriesTimeRanges) : Prop :=
  trs.ranges.length = 1 ∧
    oldest trs.ranges ≤ trs.fromT + settings.lookbackStep ∧
    newest trs.ranges < trs.untilT - settings.lookbackStep

instance (settings : PromqlSeriesSettings) (trs : SeriesTimeRanges) :
    Decidable (disappearedCond settings trs) := by
  unfold disappearedCond; infer_instance

/-- Step 5 body: apply the min-age gate and emit the disappeared Bug. -/
def disappearedCase (env : PromEnv) (settings : PromqlSeriesSettings) (rule : Rule)
    (sel : VectorSelector) (trs : SeriesTimeRanges)
    (problems : List Problem) (log : List String) : List Problem × List String :=
  let ma := getMinAge env rule sel
  let problems := problems ++ ma.2
  if trs.untilT - ma.1 ≤ newest trs.ranges then (problems, log)
  else (problems ++ [disappearedProblem env settings (ruleExpr rule) (stripLabels sel) trs], log)

/-- The Bug of step 6a: no series ever matched this matcher. -/
def labelValueMissingProblem (env : PromEnv) (settings : PromqlSeriesSettings)
    (expr : PromQLExpr) (bare : VectorSelector) (lm : Matcher)
    (trs tl : SeriesTimeRanges) : Problem :=
  let ts := textAndSeverity settings (vsToString bare)
    (promText env.name tl.uri ++ " has `" ++ vsToString bare ++ "` metric with `" ++
      lm.name ++ "` label but there are no series matching `\x7b" ++
      matcherToString lm ++ "\x7d` in the last " ++ sinceDesc env trs.fromT ++ ".")
    .bug
  { lines := expr.value.lines
    reporter := SeriesCheckName
    text := ts.1
    details := SeriesCheckCommonProblemDetails
    severity := ts.2 }

/-- The Bug of step 6b: series matching the matcher disappeared. -/
def labelDisappearedProblem (env : PromEnv) (settings : PromqlSeriesSettings)
    (expr : PromQLExpr) (bare : VectorSelector) (lm : Matcher)
    (trs tl : SeriesTimeRanges) : Problem :=
  let ts := textAndSeverity settings (vsToString bare)
    (promText env.name trs.uri ++ " has `" ++ vsToString bare ++
      "` metric but doesn't currently have series matching `\x7b" ++
      matcherToString lm ++ "\x7d`, such series was last present " ++
      sinceDesc env (newest tl.ranges) ++ " ago.")
    .bug
  { lines := expr.value.lines
    reporter := SeriesCheckName
    text := ts.1
    details := SeriesCheckCommonProblemDetails
    severity := ts.2 }

/-- The Warning of step 6c: series matching the matcher are intermittent. -/
def sometimesLabelProblem (env : PromEnv) (expr : PromQLExpr) (bare : VectorSelector)
    (lm : Matcher) (trs tl : SeriesTimeRanges) : Problem :=
  { lines := expr.value.lines
    reporter := SeriesCheckName
    text := "Metric `" ++ vsToString bare ++ "` with label `\x7b" ++
      matcherToString lm ++ "\x7d` is only sometimes present on " ++
      promText env.name trs.uri ++ " with average life span of " ++
      humanizeDuration (avgLife tl.ranges) ++ "."
    details := SeriesCheckCommonProblemDetails
    severity := .warning }

/-- `labelGapOutsideBaseGaps`: some gap of the per-matcher series overlaps
no gap of the base metric. -/
def labelGapOutside (tl trs : SeriesTimeRanges) : Bool :=
  tl.gaps.any fun lg =>
    !(trs.gaps.any fun bg =>
      overlapsB { start := lg.start, stop := lg.stop }
        { start := bg.start, stop := bg.stop } trs.stepDur)

/-- The guard of step 6b exactly as the source writes it: exactly one
range, its start no later than `Until + (lookbackRange - 1ns) + step`,
its end more than one step before the window end.  (The middle bound is
`Until.Add(settings.lookbackRangeDuration-1).Add(settings.lookbackStepDuration)`,
a point in the future of the window.) -/
def labelDisappearedCond (settings : PromqlSeriesSettings) (tl : SeriesTimeRanges) : Prop :=
  tl.ranges.length = 1 ∧
    oldest tl.ranges ≤ tl.untilT + (settings.lookbackRange - 1) + settings.lookbackStep ∧
    newest tl.ranges < tl.untilT - settings.lookbackStep

instance (settings : PromqlSeriesSettings) (tl : SeriesTimeRanges) :
    Decidable (labelDisappearedCond settings tl) := by
  unfold labelDisappearedCond; infer_instance

/-- Step 6b body: the gap comparison, the min-age gate and the Bug. -/
def matcher6b (env : PromEnv) (settings : PromqlSeriesSettings) (rule : Rule)
    (sel : VectorSelector) (lm : Matcher) (trs tl : SeriesTimeRanges)
    (problems : List Problem) (log : List String) : List Problem × List String :=
  if labelGapOutside tl trs then
    let ma := getMinAge env rule sel
    let problems := problems ++ ma.2
    if tl.untilT - ma.1 ≤ newest tl.ranges then (problems, log)
    else
      (problems ++
        [labelDisappearedProblem env settings (ruleExpr rule) (stripLabels sel) lm trs tl], log)
  else (problems, log)

/-- One iteration of the per-matcher loop (steps 6a/6b/6c). -/
def matcherOne (env : PromEnv) (settings : PromqlSeriesSettings) (rule : Rule)
    (sel : VectorSelector) (metricName : String) (trs promUptime : SeriesTimeRanges)
    (st : List Problem × List String) (lm : Matcher) : List Problem × List String :=
  if lm.name == metricNameLabel then st
  else if lm.mtype != MatchType.eq && lm.mtype != MatchType.re then st
  else if isLabelValueIgnored rule sel lm.name then st
  else
    let lsel := addNameSelectorIfNeeded
      { name := metricName, labelMatchers := [lm] } sel.labelMatchers
    let log := st.2 ++ [countQuery lsel]
    match env.rangeQuery (countQuery lsel) with
    | .error e => (st.1 ++ [queryProblem env e (ruleExpr rule)], log)
    | .ok rr =>
      let tl := withGaps (mkSeries env settings rr.ranges rr.uri) promUptime
      if tl.ranges.isEmpty then
        (st.1 ++
          [labelValueMissingProblem env settings (ruleExpr rule) (stripLabels sel) lm trs tl],
         log)
      else if labelDisappearedCond settings tl then
        matcher6b env settings rule sel lm trs tl st.1 log
      else if 1 < tl.ranges.length ∧ ¬ tl.gaps.isEmpty then
        (st.1 ++ [sometimesLabelProblem env (ruleExpr rule) (stripLabels sel) lm trs tl], log)
      else (st.1, log)

/-- Step 6: the per-matcher loop over the selector's matchers. -/
def matcherLoop (env : PromEnv) (settings : PromqlSeriesSettings) (rule : Rule)
    (sel : VectorSelector) (metricName : String) (trs promUptime : SeriesTimeRanges)
    (problems : List Problem) (log : List String) : List Problem × List String :=
  sel.labelMatchers.foldl (matcherOne env settings rule sel metricName trs promUptime)
    (problems, log)

/-- The Warning of step 7/8: the base metric is intermittent. -/
def sometimesProblem (env : PromEnv) (expr : PromQLExpr) (bare : VectorSelector)
    (trs : SeriesTimeRanges) : Problem :=
  { lines := expr.value.lines
    reporter := SeriesCheckName
    text := "Metric `" ++ vsToString bare ++ "` is only sometimes present on " ++
      promText env.name trs.uri ++ " with average life span of " ++
      humanizeDuration (avgLife trs.ranges) ++ " in the last " ++
      sinceDesc env trs.fromT ++ "."
    details := SeriesCheckCommonProblemDetails
    severity := .warning }

/-- Step 8: warn when the base metric has ranges and gaps. -/
def intermittentCase (env : PromEnv) (rule : Rule) (sel : VectorSelector)
    (trs : SeriesTimeRanges) (problems : List Problem) (log : List String) :
    List Problem × List String :=
  if ¬ trs.ranges.isEmpty ∧ ¬ trs.gaps.isEmpty then
    (problems ++ [sometimesProblem env (ruleExpr rule) (stripLabels sel) trs], log)
  else (problems, log)

/-- Steps 5 through 8, entered only when the required-label step left the
accumulated problem list empty. -/
def afterLabelHistory (env : PromEnv) (settings : PromqlSeriesSettings) (rule : Rule)
    (sel : VectorSelector) (metricName : String) (trs promUptime : SeriesTimeRanges)
    (problems : List Problem) (log : List String) : List Problem × List String :=
  if disappearedCond settings trs then
    disappearedCase env settings rule sel trs problems log
  else
    let st := matcherLoop env settings rule sel metricName trs promUptime problems log
    if 0 < st.1.length then st
    else intermittentCase env rule sel trs st.1 st.2

/-- Steps 4 through 8, entered when the base metric has historical ranges:
run the required-label loop, then continue to the next selector when the
accumulated problem list is nonempty (`if len(problems) > 0`). -/
def afterBase (env : PromEnv) (settings : PromqlSeriesSettings) (rule : Rule)
    (_entries : List Entry) (sel : VectorSelector) (metricName : String)
    (trs promUptime : SeriesTimeRanges) (problems : List Problem) (log : List String) :
    List Problem × List String :=
  let st := labelHistoryStep env settings rule sel trs promUptime problems log
  if 0 < st.1.length then st
  else afterLabelHistory env settings rule sel metricName trs promUptime st.1 st.2

/-- Steps 3 through 8, entered after the uptime fetch: the base-metric
history probe and everything below it. -/
def afterUptime (env : PromEnv) (settings : PromqlSeriesSettings) (rule : Rule)
    (entries : List Entry) (sel : VectorSelector) (metricName : String)
    (promUptime : SeriesTimeRanges) (problems : List Problem) (log : List String) :
    List Problem × List String :=
  let log := log ++ [countQuery (stripLabels sel)]
  match env.rangeQuery (countQuery (stripLabels sel)) with
  | .error e => (problems ++ [queryProblem env e (ruleExpr rule)], log)
  | .ok rr =>
    let trs := withGaps (mkSeries env settings rr.ranges rr.uri) promUptime
    if trs.ranges.isEmpty then
      baseMissingCase env settings rule entries sel trs problems log
    else
      afterBase env settings rule entries sel metricName trs promUptime problems log

/-- The body of the per-selector loop of `SeriesCheck.Check` after the
dedup and disable gates: step 0, then the presence probe, then the rest. -/
def checkSelector (env : PromEnv) (settings : PromqlSeriesSettings) (rule : Rule)
    (entries : List Entry) (sel : VectorSelector) (problems : List Problem)
    (log : List String) : List Problem × List String :=
  if metricNameOf sel = "ALERTS" ∨ metricNameOf sel = "ALERTS_FOR_STATE" then
    alertsCase env rule entries sel problems log
  else
    match env.query (countQuery sel) with
    | .error e => (problems ++ [queryProblem env e (ruleExpr rule)], log ++ [countQuery sel])
    | .ok resp =>
      if 0 < sampleSum resp.samples then (problems, log ++ [countQuery sel])
      else
        afterUptime env settings rule entries sel (metricNameOf sel)
          (fetchUptime env settings) problems
          (log ++ [countQuery sel, uptimeQuery env])

/-- The loop state of `SeriesCheck.Check`: the `done` selector strings,
the accumulated problems, and the query log. -/
structure CheckState where
  done : List String
  problems : List Problem
  qlog : List String

/-- One iteration of the selector loop: skip selectors already done,
record the selector string, skip disabled selectors, else run the body. -/
def selStep (env : PromEnv) (settings : PromqlSeriesSettings) (rule : Rule)
    (entries : List Entry) (st : CheckState) (sel : VectorSelector) : CheckState :=
  if vsToString sel ∈ st.done then st
  else
    let done := st.done ++ [vsToString sel]
    if isDisabled env rule sel then
      { done := done, problems := st.problems, qlog := st.qlog }
    else
      let r := checkSelector env settings rule entries sel st.problems st.qlog
      { done := done, problems := r.1, qlog := r.2 }

/-- `SeriesCheck.Check`: an expression with a syntax error yields nothing;
otherwise the per-selector loop over `getSelectors` runs with the dedup
set.  Returns the problems and the query log. -/
def seriesCheck (env : PromEnv) (settings : PromqlSeriesSettings) (rule : Rule)
    (entries : List Entry) : List Problem × List String :=
  let expr := ruleExpr rule
  if expr.syntaxError.isSome then ([], [])
  else
    let st := (getSelectors expr.query).foldl (selStep env settings rule entries)
      { done := [], problems := [], qlog := [] }
    (st.problems, st.qlog)

/-! ## Claim-side definitions

Definitions written from the spec's words, to be compared with the
embedded source definitions (refinement-style claims C6 and C8). -/

/-- The summed lifespans `(end - start + 1s)` of a range list, the
numerator of the arithmetic mean claimed for `avg_life`. -/
def lifespanSum (ranges : List MetricTimeRange) : Int :=
  (ranges.map fun r => r.stop - r.start + nsPerSecond).sum

/-- C6 as amended: the truncated arithmetic mean — summed lifespans
truncated to whole seconds, integer-divided by the count, rescaled;
zero for the empty list. -/
def avgLifeAmended (ranges : List MetricTimeRange) : Int :=
  if ranges.isEmpty then 0
  else nsPerSecond *
    ((Int.tdiv (lifespanSum ranges) nsPerSecond).tdiv (Int.ofNat ranges.length))

/-- C8 as stated: literal/folded style always starts at the line after
the style marker; anything else at the declared line. -/
def nodeLinesClaim (node : GoYamlNode) (offset : Int) : LineRange :=
  let first :=
    if node.style = YamlStyle.literalStyle ∨ node.style = YamlStyle.foldedStyle then
      node.line + 1 + offset
    else node.line + offset
  { first := first, last := first + (newlineCount (trimSuffixNewline node.value) : Int) }

/-- C8 as amended: a node with an empty value starts at its declared line
regardless of style; otherwise literal/folded style starts one line
later. -/
def nodeLinesAmended (node : GoYamlNode) (offset : Int) : LineRange :=
  let first :=
    if node.value ≠ "" ∧
        (node.style = YamlStyle.literalStyle ∨ node.style = YamlStyle.foldedStyle) then
      node.line + 1 + offset
    else node.line + offset
  { first := first, last := first + (newlineCount (trimSuffixNewline node.value) : Int) }

/-- The value of the last equality `__name__` matcher of a list, used to
characterise `stripLabels`. -/
def lastEqValue : List Matcher → Option String
  | [] => none
  | lm :: rest =>
    match lastEqValue rest with
    | some v => some v
    | none =>
      if lm.name == metricNameLabel && lm.mtype == MatchType.eq then some lm.value
      else none

/-! ## Concrete fixtures

Selectors, rules and scripted servers used by the concrete theorems; the
scripted servers play the role of the test-suite Prometheus mocks. -/

/-- An expression tree whose pre-order selector list is exactly `sels`. -/
def exprOfSelectors (sels : List VectorSelector) : PromQLNode :=
  .mk none (sels.map fun s => .mk (some s) [])

/-- A parsed recording rule whose expression holds the given selectors. -/
def mkRecRule (comments : List Comment) (sels : List VectorSelector) : Rule :=
  { alertingRule := none
    recordingRule := some
      { record := { value := "r", lines := { first := 1, last := 1 } }
        expr := { value := { value := "", lines := { first := 2, last := 2 } }
                  syntaxError := none
                  query := exprOfSelectors sels } }
    error := none
    comments := comments
    lines := { first := 1, last := 2 } }

/-- Window start used by the fixtures: `now - 7d`. -/
def tFrom : Int := 604800000000000

/-- Window end (`now`) used by the fixtures. -/
def tUntil : Int := 1209600000000000

/-- The selector `foo{job="x"}`. -/
def selFooJob : VectorSelector :=
  { name := "foo", labelMatchers := [{ name := "job", mtype := .eq, value := "x" }] }

/-- The selector `bar`. -/
def selBar : VectorSelector := { name := "bar", labelMatchers := [] }

/-- The selector `ALERTS{alertname="Missing"}`. -/
def selAlerts : VectorSelector :=
  { name := "ALERTS", labelMatchers := [{ name := "alertname", mtype := .eq, value := "Missing" }] }

/-- The selector `{__name__="foo", job="x"}` (name only via matcher). -/
def selNameJob : VectorSelector :=
  { name := ""
    labelMatchers := [{ name := "__name__", mtype := .eq, value := "foo" },
                      { name := "job", mtype := .eq, value := "x" }] }

/-- Scripted server for the step-6b evaluation: `foo` always present over
the full window, `foo{job="x"}` present for a single range that starts in
the middle of the window and ends three hours before its end. -/
def envMid : PromEnv :=
  { name := "prom"
    uptimeMetric := "up"
    now := tUntil
    query := fun _ => .ok { samples := [], uri := "http://prom" }
    rangeQuery := fun q =>
      if q = "count(up)" then
        .ok { ranges := [{ start := tFrom, stop := tUntil }], uri := "http://prom" }
      else if q = "count(foo)" then
        .ok { ranges := [{ start := tFrom, stop := tUntil }], uri := "http://prom" }
      else if q = "absent(foo\x7bjob=~\".+\"\x7d)" then
        .ok { ranges := [], uri := "http://prom" }
      else if q = "count(foo\x7bjob=\"x\"\x7d)" then
        .ok { ranges := [{ start := tFrom + 302400000000000, stop := tUntil - 10800000000000 }]
              uri := "http://prom" }
      else .error .badData
    checkOtherServer := fun _ => SeriesCheckCommonProblemDetails
    parseMetricSelector := fun _ => none
    parseDuration := fun _ => .error "not supported" }

/-- Scripted server for the step-4 skip evaluation: `count(bar)` fails
with a bad-data error; `foo` has a single range that ends three hours
before the window end (step 5 would fire for it). -/
def envSkip : PromEnv :=
  { envMid with
    query := fun q =>
      if q = "count(bar)" then .error .badData
      else .ok { samples := [], uri := "http://prom" }
    rangeQuery := fun q =>
      if q = "count(up)" then
        .ok { ranges := [{ start := tFrom, stop := tUntil }], uri := "http://prom" }
      else if q = "count(foo)" then
        .ok { ranges := [{ start := tFrom, stop := tUntil - 10800000000000 }], uri := "http://prom" }
      else if q = "absent(foo\x7bjob=~\".+\"\x7d)" then
        .ok { ranges := [], uri := "http://prom" }
      else .error .badData }

/-- Scripted server answering every instant query with one sample of
value 5 (every selector is present). -/
def envPresent : PromEnv :=
  { envMid with
    query := fun _ => .ok { samples := [5], uri := "http://prom" } }

/-- Scripted server for the recording-rule case: nothing is present and
the base range query returns no ranges. -/
def envEmpty : PromEnv :=
  { envMid with
    rangeQuery := fun q =>
      if q = "count(up)" then
        .ok { ranges := [{ start := tFrom, stop := tUntil }], uri := "http://prom" }
      else .ok { ranges := [], uri := "http://prom" } }

/-- A sibling entry carrying a parsed recording rule `record: foo`. -/
def entryRecFoo : Entry :=
  { rule :=
      { alertingRule := none
        recordingRule := some
          { record := { value := "foo", lines := { first := 1, last := 1 } }
            expr := { value := { value := "", lines := { first := 2, last := 2 } }
                      syntaxError := none
                      query := .mk none [] } }
        error := none
        comments := []
        lines := { first := 1, last := 2 } }
    sourcePath := "rules/rec.yml" }

/-- A rule whose expression failed to parse. -/
def ruleSyntaxError : Rule :=
  { alertingRule := none
    recordingRule := some
      { record := { value := "r", lines := { first := 1, last := 1 } }
        expr := { value := { value := "sum(foo) without(", lines := { first := 2, last := 2 } }
                  syntaxError := some "unexpected end of input"
                  query := .mk none [] } }
    error := none
    comments := []
    lines := { first := 1, last := 2 } }

/-! ## Lemmas -/

theorem stripLabelsAux_matchers (l : List Matcher) :
    ∀ n acc, (stripLabelsAux n acc l).2 =
      acc ++ l.filter (fun lm => lm.name == metricNameLabel) := by
  induction l with
  | nil => intro n acc; simp [stripLabelsAux]
  | cons lm rest ih =>
    intro n acc
    by_cases h : (lm.name == metricNameLabel) = true
    · simp [stripLabelsAux, h, ih, List.filter_cons]
    · simp [stripLabelsAux, h, ih, List.filter_cons]

theorem stripLabelsAux_name (l : List Matcher) :
    ∀ n acc, (stripLabelsAux n acc l).1 = (lastEqValue l).getD n := by
  induction l with
  | nil => intro n acc; simp [stripLabelsAux, lastEqValue]
  | cons lm rest ih =>
    intro n acc
    simp only [stripLabelsAux, lastEqValue]
    by_cases h : (lm.name == metricNameLabel) = true
    · rw [if_pos h, ih]
      cases hl : lastEqValue rest <;> by_cases he : (lm.mtype == MatchType.eq) = true <;>
        simp [hl, h, he]
    · rw [if_neg h, ih]
      cases hl : lastEqValue rest <;> simp [hl, h]

theorem stripLabels_matchers (S : VectorSelector) :
    (stripLabels S).labelMatchers =
      S.labelMatchers.filter (fun lm => lm.name == metricNameLabel) := by
  simpa [stripLabels] using stripLabelsAux_matchers S.labelMatchers S.name []

theorem stripLabels_name (S : VectorSelector) :
    (stripLabels S).name = (lastEqValue S.labelMatchers).getD S.name := by
  simpa [stripLabels] using stripLabelsAux_name S.labelMatchers S.name []

theorem lastEqValue_filter (l : List Matcher) :
    lastEqValue (l.filter fun lm => lm.name == metricNameLabel) = lastEqValue l := by
  induction l with
  | nil => rfl
  | cons lm rest ih =>
    by_cases h : (lm.name == metricNameLabel) = true
    · simp [List.filter_cons, h, lastEqValue, ih]
    · rw [List.filter_cons_of_neg (by simpa using h), ih]
      simp only [lastEqValue]
      cases hl : lastEqValue rest <;> simp [hl, h]

theorem lastEqValue_mem {l : List Matcher} {v : String} (h : lastEqValue l = some v) :
    ∃ lm ∈ l, lm.name = metricNameLabel ∧ lm.mtype = MatchType.eq ∧ lm.value = v := by
  induction l with
  | nil => simp [lastEqValue] at h
  | cons lm rest ih =>
    simp only [lastEqValue] at h
    cases hl : lastEqValue rest with
    | some w =>
      rw [hl] at h
      simp at h
      subst h
      obtain ⟨m, hm, hrest⟩ := ih hl
      exact ⟨m, List.mem_cons_of_mem _ hm, hrest⟩
    | none =>
      rw [hl] at h
      by_cases hc : (lm.name == metricNameLabel && lm.mtype == MatchType.eq) = true
      · rw [if_pos hc] at h
        simp only [Bool.and_eq_true, beq_iff_eq] at hc
        simp at h
        exact ⟨lm, List.mem_cons_self _ _, hc.1, hc.2, h⟩
      · rw [if_neg hc] at h
        exact absurd h (by simp)

theorem lastEqValue_isSome {l : List Matcher} {lm : Matcher} (hmem : lm ∈ l)
    (hn : lm.name = metricNameLabel) (ht : lm.mtype = MatchType.eq) :
    (lastEqValue l).isSome := by
  induction l with
  | nil => simp at hmem
  | cons a rest ih =>
    simp only [lastEqValue]
    cases hl : lastEqValue rest with
    | some w => simp
    | none =>
      rcases List.mem_cons.mp hmem with h | h
      · subst h
        simp [hn, ht]
      · have hs := ih h
        rw [hl] at hs
        simp at hs

theorem stripLabels_matchers_idem (S : VectorSelector) :
    (stripLabels (stripLabels S)).labelMatchers = (stripLabels S).labelMatchers := by
  rw [stripLabels_matchers (stripLabels S)]
  apply List.filter_eq_self.mpr
  intro a ha
  rw [stripLabels_matchers S] at ha
  exact (List.mem_filter.mp ha).2

theorem stripLabels_name_idem (S : VectorSelector) :
    (stripLabels (stripLabels S)).name = (stripLabels S).name := by
  rw [stripLabels_name (stripLabels S), stripLabels_matchers S, lastEqValue_filter,
    stripLabels_name S]
  cases hl : lastEqValue S.labelMatchers <;> simp [hl]

theorem stripLabels_idem (S : VectorSelector) :
    stripLabels (stripLabels S) = stripLabels S :=
  calc stripLabels (stripLabels S)
      = { name := (stripLabels (stripLabels S)).name,
          labelMatchers := (stripLabels (stripLabels S)).labelMatchers } := rfl
    _ = { name := (stripLabels S).name, labelMatchers := (stripLabels S).labelMatchers } := by
        rw [stripLabels_name_idem, stripLabels_matchers_idem]
    _ = stripLabels S := rfl

theorem foldl_add_sum (f : MetricTimeRange → Int) (l : List MetricTimeRange) :
    ∀ a : Int, l.foldl (fun acc r => acc + f r) a = a + (l.map f).sum := by
  induction l with
  | nil => intro a; simp
  | cons r rest ih => intro a; simp [ih, add_assoc]

/-! ## Claim theorems -/

/-- C7: `strip_labels` is idempotent; its result retains only matchers on
`__name__`, and its `.name` field is set from an equality matcher on
`__name__` when one exists. -/
theorem c7_stripLabels_idempotent (S : VectorSelector) :
    stripLabels (stripLabels S) = stripLabels S
    ∧ (∀ lm ∈ (stripLabels S).labelMatchers, lm.name = metricNameLabel)
    ∧ ((∃ lm ∈ S.labelMatchers, lm.name = metricNameLabel ∧ lm.mtype = MatchType.eq) →
        ∃ lm ∈ S.labelMatchers, lm.name = metricNameLabel ∧ lm.mtype = MatchType.eq ∧
          (stripLabels S).name = lm.value) := by
  refine ⟨stripLabels_idem S, ?_, ?_⟩
  · intro lm hlm
    rw [stripLabels_matchers S] at hlm
    simpa using (List.mem_filter.mp hlm).2
  · rintro ⟨lm, hmem, hn, ht⟩
    have hs := lastEqValue_isSome hmem hn ht
    obtain ⟨v, hv⟩ := Option.isSome_iff_exists.mp hs
    obtain ⟨m, hm, h1, h2, h3⟩ := lastEqValue_mem hv
    refine ⟨m, hm, h1, h2, ?_⟩
    rw [stripLabels_name S, hv]
    simp [h3]

/-- C7 witness: the idempotence statement instantiated at a selector that
carries both an equality `__name__` matcher and an ordinary matcher. -/
theorem c7_witness :
    stripLabels (stripLabels selNameJob) = stripLabels selNameJob
    ∧ (∀ lm ∈ (stripLabels selNameJob).labelMatchers, lm.name = metricNameLabel)
    ∧ ((∃ lm ∈ selNameJob.labelMatchers,
          lm.name = metricNameLabel ∧ lm.mtype = MatchType.eq) →
        ∃ lm ∈ selNameJob.labelMatchers,
          lm.name = metricNameLabel ∧ lm.mtype = MatchType.eq ∧
            (stripLabels selNameJob).name = lm.value) :=
  c7_stripLabels_idempotent selNameJob

/-- C6 counterexample: for the two ranges `[0, 0]` and `[0, 1s]` the
lifespans are 1s and 2s; the exact arithmetic mean would satisfy
`avg_life * 2 = 3s`, but `avgLife` returns 1s. -/
theorem c6_counterexample :
    avgLife [{ start := 0, stop := 0 }, { start := 0, stop := nsPerSecond }] * 2
      ≠ lifespanSum [{ start := 0, stop := 0 }, { start := 0, stop := nsPerSecond }]
    ∧ avgLife [{ start := 0, stop := 0 }, { start := 0, stop := nsPerSecond }]
      = nsPerSecond := by
  decide

/-- C6 as amended: `avgLife` returns the arithmetic mean of
`(end - start + 1s)` truncated to whole seconds and integer-divided by
the count (one step unit being one second), and zero for the empty list. -/
theorem c6_avgLife_truncated_mean (ranges : List MetricTimeRange) :
    avgLife ranges = avgLifeAmended ranges := by
  unfold avgLife avgLifeAmended lifespanSum
  rw [foldl_add_sum]
  rcases ranges with _ | ⟨r, rest⟩
  · simp
  · simp

/-- C8 counterexample: a literal-style scalar node with an empty value is
assigned its declared line by `nodeLines`, not the following line the
claim requires for literal style. -/
theorem c8_counterexample :
    nodeLines { line := 5, style := YamlStyle.literalStyle, value := "" } 0
      ≠ nodeLinesClaim { line := 5, style := YamlStyle.literalStyle, value := "" } 0 := by
  decide

/-- C8 as amended: a scalar node with an empty value starts at its
declared line regardless of style; a nonempty literal/folded node starts
one line after the style marker; anything else at its declared line; the
last line adds the newline count of the value after trimming one
trailing newline. -/
theorem c8_nodeLines_amended (node : GoYamlNode) (offset : Int) :
    nodeLines node offset = nodeLinesAmended node offset := by
  unfold nodeLines nodeLinesAmended
  by_cases hv : node.value = "" <;>
    by_cases hs : node.style = YamlStyle.literalStyle ∨ node.style = YamlStyle.foldedStyle <;>
      simp [hv, hs]

/-- C9: a rule whose expression carries a PromQL syntax error produces no
problems and issues no queries. -/
theorem c9_syntax_error_no_problems (env : PromEnv) (settings : PromqlSeriesSettings)
    (rule : Rule) (entries : List Entry)
    (h : (ruleExpr rule).syntaxError.isSome) :
    seriesCheck env settings rule entries = ([], []) := by
  unfold seriesCheck
  simp [h]

/-- C9 witness: the syntax-error rule fixture produces nothing. -/
theorem c9_witness :
    (ruleExpr ruleSyntaxError).syntaxError.isSome
    ∧ seriesCheck envMid defaultSettings ruleSyntaxError [] = ([], []) :=
  ⟨by decide, c9_syntax_error_no_problems envMid defaultSettings ruleSyntaxError [] (by decide)⟩

/-- C1: for a selector outside the ALERTS special case, when the instant
`count(S)` probe succeeds with a positive count, the selector produces no
problem and the loop body ends there (only that one query was issued). -/
theorem c1_present_selector_no_problem (env : PromEnv) (settings : PromqlSeriesSettings)
    (rule : Rule) (entries : List Entry) (sel : VectorSelector)
    (problems : List Problem) (log : List String) (resp : QueryResult)
    (hname : ¬ (metricNameOf sel = "ALERTS" ∨ metricNameOf sel = "ALERTS_FOR_STATE"))
    (hq : env.query (countQuery sel) = .ok resp)
    (hpos : 0 < sampleSum resp.samples) :
    checkSelector env settings rule entries sel problems log
      = (problems, log ++ [countQuery sel]) := by
  unfold checkSelector
  rw [if_neg hname, hq]
  simp [hpos]

/-- C1 witness: a scripted server returning one sample of value 5 for the
probe of `bar`. -/
theorem c1_witness :
    ¬ (metricNameOf selBar = "ALERTS" ∨ metricNameOf selBar = "ALERTS_FOR_STATE")
    ∧ envPresent.query (countQuery selBar)
        = .ok { samples := [5], uri := "http://prom" }
    ∧ 0 < sampleSum [5]
    ∧ checkSelector envPresent defaultSettings (mkRecRule [] [selBar]) [] selBar [] []
        = ([], [countQuery selBar]) :=
  ⟨by decide, rfl, by decide,
   c1_present_selector_no_problem envPresent defaultSettings (mkRecRule [] [selBar]) []
     selBar [] [] { samples := [5], uri := "http://prom" } (by decide) rfl (by decide)⟩

/-- C4 counterexample: for `ALERTS{alertname="Missing"}` with no sibling
alerting rule the emitted Bug text ends with a trailing period, so it is
not the text the claim states (which has no final period). -/
theorem c4_counterexample :
    ((seriesCheck envMid defaultSettings (mkRecRule [] [selAlerts]) []).1.map
        fun p => (p.text, p.severity))
      = [("`ALERTS\x7balertname=\"Missing\"\x7d` metric is generated by alerts but didn't found any rule named `Missing`.",
          Severity.bug)]
    ∧ ((seriesCheck envMid defaultSettings (mkRecRule [] [selAlerts]) []).1.map
        fun p => p.text)
      ≠ ["`ALERTS\x7balertname=\"Missing\"\x7d` metric is generated by alerts but didn't found any rule named `Missing`"] := by
  decide

/-- C4 as amended: for a selector named ALERTS / ALERTS_FOR_STATE, with
`X` the value of the last non-regexp `alertname` matcher (the equality
matcher when it is the only one): if `X` is nonempty and no parsed
sibling alerting rule is named `X`, the check emits exactly one Bug whose
text is the claim's text followed by a trailing period, and in every case
it ends the selector without issuing any query. -/
theorem c4_alerts_special_case (env : PromEnv) (settings : PromqlSeriesSettings)
    (rule : Rule) (entries : List Entry) (sel : VectorSelector)
    (problems : List Problem) (log : List String)
    (h : metricNameOf sel = "ALERTS" ∨ metricNameOf sel = "ALERTS_FOR_STATE") :
    ((alertnameOf sel ≠ "" ∧ findAlertingEntry entries (alertnameOf sel) = none) →
      checkSelector env settings rule entries sel problems log
        = (problems ++ [alertsProblem (ruleExpr rule) sel (alertnameOf sel)], log))
    ∧ ((alertnameOf sel = "" ∨ (findAlertingEntry entries (alertnameOf sel)).isSome) →
      checkSelector env settings rule entries sel problems log = (problems, log)) := by
  constructor
  · rintro ⟨hne, hnone⟩
    unfold checkSelector
    rw [if_pos h]
    unfold alertsCase
    rw [if_neg hne, hnone]
  · rintro (he | hs)
    · unfold checkSelector
      rw [if_pos h]
      unfold alertsCase
      rw [if_pos he]
    · by_cases he : alertnameOf sel = ""
      · unfold checkSelector
        rw [if_pos h]
        unfold alertsCase
        rw [if_pos he]
      · obtain ⟨e, hee⟩ := Option.isSome_iff_exists.mp hs
        unfold checkSelector
        rw [if_pos h]
        unfold alertsCase
        rw [if_neg he, hee]

/-- C4 witness: the amended statement at `ALERTS{alertname="Missing"}`
with no sibling rules; the Bug (with the trailing period) is emitted and
nothing is queried. -/
theorem c4_witness :
    checkSelector envMid defaultSettings (mkRecRule [] [selAlerts]) [] selAlerts [] []
      = ([alertsProblem (ruleExpr (mkRecRule [] [selAlerts])) selAlerts
            (alertnameOf selAlerts)], []) :=
  (c4_alerts_special_case envMid defaultSettings (mkRecRule [] [selAlerts]) [] selAlerts
      [] [] (by decide)).1 ⟨by decide, rfl⟩

/-- C3: when the base-metric range probe succeeds with no ranges and a
parsed sibling recording rule records the bare selector's metric, the
selector contributes exactly one problem — the Information one citing a
recording rule — and the loop body ends there (no Bug is emitted, no
further queries are issued). -/
theorem c3_recording_rule_information (env : PromEnv) (settings : PromqlSeriesSettings)
    (rule : Rule) (entries : List Entry) (sel : VectorSelector)
    (problems : List Problem) (log : List String) (resp : QueryResult) (rr : RangeResult)
    (hname : ¬ (metricNameOf sel = "ALERTS" ∨ metricNameOf sel = "ALERTS_FOR_STATE"))
    (hq : env.query (countQuery sel) = .ok resp)
    (hz : ¬ 0 < sampleSum resp.samples)
    (hr : env.rangeQuery (countQuery (stripLabels sel)) = .ok rr)
    (hempty : rr.ranges = [])
    (hrec : (findRecordingEntry entries (stripLabels sel)).isSome) :
    checkSelector env settings rule entries sel problems log
      = (problems ++ [recRuleProblem env (ruleExpr rule) (stripLabels sel)
            (withGaps (mkSeries env settings rr.ranges rr.uri) (fetchUptime env settings))],
         log ++ [countQuery sel, uptimeQuery env, countQuery (stripLabels sel)])
      ∧ (recRuleProblem env (ruleExpr rule) (stripLabels sel)
            (withGaps (mkSeries env settings rr.ranges rr.uri) (fetchUptime env settings))).severity
          = Severity.information := by
  refine ⟨?_, rfl⟩
  obtain ⟨e, he⟩ := Option.isSome_iff_exists.mp hrec
  unfold checkSelector
  rw [if_neg hname, hq]
  dsimp only
  rw [if_neg hz]
  unfold afterUptime
  rw [hr]
  dsimp only
  have hre : (withGaps (mkSeries env settings rr.ranges rr.uri)
      (fetchUptime env settings)).ranges = rr.ranges := rfl
  rw [if_pos (by rw [hre, hempty]; rfl)]
  unfold baseMissingCase
  rw [he]
  simp [List.append_assoc]

/-- C3 witness: `foo{job="x"}` on a server with no series at all, with a
sibling entry recording `foo`. -/
theorem c3_witness :
    checkSelector envEmpty defaultSettings (mkRecRule [] [selFooJob]) [entryRecFoo]
        selFooJob [] []
      = ([recRuleProblem envEmpty (ruleExpr (mkRecRule [] [selFooJob])) (stripLabels selFooJob)
            (withGaps (mkSeries envEmpty defaultSettings [] "http://prom")
              (fetchUptime envEmpty defaultSettings))],
         [countQuery selFooJob, uptimeQuery envEmpty, countQuery (stripLabels selFooJob)])
      ∧ (recRuleProblem envEmpty (ruleExpr (mkRecRule [] [selFooJob])) (stripLabels selFooJob)
            (withGaps (mkSeries envEmpty defaultSettings [] "http://prom")
              (fetchUptime envEmpty defaultSettings))).severity
          = Severity.information := by
  have h := c3_recording_rule_information envEmpty defaultSettings
    (mkRecRule [] [selFooJob]) [entryRecFoo] selFooJob [] []
    { samples := [], uri := "http://prom" } { ranges := [], uri := "http://prom" }
    (by decide) rfl (by decide) rfl rfl (by decide)
  simpa using h

theorem labelHistoryOne_extends (env : PromEnv) (settings : PromqlSeriesSettings)
    (rule : Rule) (sel : VectorSelector) (trs promUptime : SeriesTimeRanges)
    (st : List Problem × List String) (name : String) :
    ∃ t, (labelHistoryOne env settings rule sel trs promUptime st name).1 = st.1 ++ t := by
  unfold labelHistoryOne
  dsimp only
  cases h : env.rangeQuery (absentQuery (labelAbsentSelector sel name)) with
  | error e => exact ⟨_, rfl⟩
  | ok rr =>
    dsimp only
    split_ifs with h1 h2
    · exact ⟨_, rfl⟩
    · exact ⟨[], by simp⟩
    · exact ⟨[], by simp⟩

theorem labelHistoryFold_extends (env : PromEnv) (settings : PromqlSeriesSettings)
    (rule : Rule) (sel : VectorSelector) (trs promUptime : SeriesTimeRanges)
    (names : List String) :
    ∀ st : List Problem × List String,
      ∃ t, ((names.foldl (labelHistoryOne env settings rule sel trs promUptime) st).1)
        = st.1 ++ t := by
  induction names with
  | nil => intro st; exact ⟨[], by simp⟩
  | cons n rest ih =>
    intro st
    obtain ⟨t1, h1⟩ := labelHistoryOne_extends env settings rule sel trs promUptime st n
    obtain ⟨t2, h2⟩ := ih (labelHistoryOne env settings rule sel trs promUptime st n)
    exact ⟨t1 ++ t2, by rw [List.foldl_cons, h2, h1, List.append_assoc]⟩

theorem labelHistoryStep_extends (env : PromEnv) (settings : PromqlSeriesSettings)
    (rule : Rule) (sel : VectorSelector) (trs promUptime : SeriesTimeRanges)
    (problems : List Problem) (log : List String) :
    ∃ t, (labelHistoryStep env settings rule sel trs promUptime problems log).1
      = problems ++ t :=
  labelHistoryFold_extends env settings rule sel trs promUptime (labelNamesOf sel)
    (problems, log)

/-- C2 as amended: once the base metric is known to have history, the
check descends from the required-label step to the remaining steps
exactly when the whole accumulated problem list is empty after that step;
in particular problems emitted for previous selectors of the same rule
(which make the accumulated list nonempty) do cause the remaining steps
to be skipped even if the required-label step itself emitted nothing. -/
theorem c2_label_history_skip (env : PromEnv) (settings : PromqlSeriesSettings)
    (rule : Rule) (entries : List Entry) (sel : VectorSelector)
    (problems : List Problem) (log : List String) (resp : QueryResult) (rr : RangeResult)
    (hname : ¬ (metricNameOf sel = "ALERTS" ∨ metricNameOf sel = "ALERTS_FOR_STATE"))
    (hq : env.query (countQuery sel) = .ok resp)
    (hz : ¬ 0 < sampleSum resp.samples)
    (hr : env.rangeQuery (countQuery (stripLabels sel)) = .ok rr)
    (hne : rr.ranges ≠ []) :
    let pu := fetchUptime env settings
    let trs := withGaps (mkSeries env settings rr.ranges rr.uri) pu
    let st := labelHistoryStep env settings rule sel trs pu problems
      (log ++ [countQuery sel, uptimeQuery env, countQuery (stripLabels sel)])
    (0 < st.1.length →
      checkSelector env settings rule entries sel problems log = st)
    ∧ (¬ 0 < st.1.length →
      checkSelector env settings rule entries sel problems log
        = afterLabelHistory env settings rule sel (metricNameOf sel) trs pu st.1 st.2)
    ∧ (problems ≠ [] → 0 < st.1.length) := by
  dsimp only
  have hmain : checkSelector env settings rule entries sel problems log
      = afterBase env settings rule entries sel (metricNameOf sel)
          (withGaps (mkSeries env settings rr.ranges rr.uri) (fetchUptime env settings))
          (fetchUptime env settings) problems
          (log ++ [countQuery sel, uptimeQuery env, countQuery (stripLabels sel)]) := by
    unfold checkSelector
    rw [if_neg hname, hq]
    dsimp only
    rw [if_neg hz]
    unfold afterUptime
    rw [hr]
    dsimp only
    rw [if_neg (by simp [withGaps, mkSeries, List.isEmpty_iff, hne])]
    rw [List.append_assoc]
    rfl
  refine ⟨?_, ?_, ?_⟩
  · intro hpos
    rw [hmain]
    unfold afterBase
    rw [if_pos hpos]
  · intro hneg
    rw [hmain]
    unfold afterBase
    rw [if_neg hneg]
  · intro hnep
    obtain ⟨t, ht⟩ := labelHistoryStep_extends env settings rule sel
      (withGaps (mkSeries env settings rr.ranges rr.uri) (fetchUptime env settings))
      (fetchUptime env settings) problems
      (log ++ [countQuery sel, uptimeQuery env, countQuery (stripLabels sel)])
    rw [ht, List.length_append]
    have := List.length_pos.mpr hnep
    omega

/-- C2 counterexample: with `count(bar)` failing (one query problem for
the first selector) and `foo` having vanished three hours before the
window end, the run on `bar, foo{job="x"}` stops after the required-label
step of the second selector even though that step emitted nothing: the
only problem is the query problem (empty details).  The run on
`foo{job="x"}` alone shows that step 5 would otherwise emit the
disappeared-metric Bug (common-problem details). -/
theorem c2_counterexample :
    ((seriesCheck envSkip defaultSettings (mkRecRule [] [selBar, selFooJob]) []).1.map
        fun p => (p.severity, p.details))
      = [(Severity.bug, "")]
    ∧ ((seriesCheck envSkip defaultSettings (mkRecRule [] [selFooJob]) []).1.map
        fun p => (p.severity, p.details))
      = [(Severity.bug, SeriesCheckCommonProblemDetails)] := by
  decide

/-- C2 witness: with a nonempty problem list carried over from earlier
processing, the required-label step leaves the list nonempty and the loop
body for `foo{job="x"}` returns it unchanged, skipping steps 5-7. -/
theorem c2_witness :
    0 < (labelHistoryStep envSkip defaultSettings (mkRecRule [] [selFooJob]) selFooJob
        (withGaps (mkSeries envSkip defaultSettings
            [{ start := tFrom, stop := tUntil - 10800000000000 }] "http://prom")
          (fetchUptime envSkip defaultSettings))
        (fetchUptime envSkip defaultSettings)
        [minAgeParseProblem (mkRecRule [] [selFooJob]) "x"]
        [countQuery selFooJob, uptimeQuery envSkip, countQuery (stripLabels selFooJob)]).1.length
    ∧ checkSelector envSkip defaultSettings (mkRecRule [] [selFooJob]) [] selFooJob
        [minAgeParseProblem (mkRecRule [] [selFooJob]) "x"] []
      = labelHistoryStep envSkip defaultSettings (mkRecRule [] [selFooJob]) selFooJob
          (withGaps (mkSeries envSkip defaultSettings
              [{ start := tFrom, stop := tUntil - 10800000000000 }] "http://prom")
            (fetchUptime envSkip defaultSettings))
          (fetchUptime envSkip defaultSettings)
          [minAgeParseProblem (mkRecRule [] [selFooJob]) "x"]
          [countQuery selFooJob, uptimeQuery envSkip, countQuery (stripLabels selFooJob)] := by
  have h := c2_label_history_skip envSkip defaultSettings (mkRecRule [] [selFooJob]) []
    selFooJob [minAgeParseProblem (mkRecRule [] [selFooJob]) "x"] []
    { samples := [], uri := "http://prom" }
    { ranges := [{ start := tFrom, stop := tUntil - 10800000000000 }], uri := "http://prom" }
    (by decide) rfl (by decide) rfl (by simp)
  dsimp only at h
  exact ⟨h.2.2 (by simp), h.1 (h.2.2 (by simp))⟩

theorem selStep_skip (env : PromEnv) (settings : PromqlSeriesSettings) (rule : Rule)
    (entries : List Entry) (st : CheckState) (sel : VectorSelector)
    (h : vsToString sel ∈ st.done) :
    selStep env settings rule entries st sel = st := by
  unfold selStep
  rw [if_pos h]

theorem selStep_done_mono (env : PromEnv) (settings : PromqlSeriesSettings) (rule : Rule)
    (entries : List Entry) (l : List VectorSelector) :
    ∀ (st : CheckState) (x : String), x ∈ st.done →
      x ∈ ((l.foldl (selStep env settings rule entries) st).done) := by
  induction l with
  | nil => intro st x hx; exact hx
  | cons s rest ih =>
    intro st x hx
    apply ih
    unfold selStep
    by_cases hmem : vsToString s ∈ st.done
    · rw [if_pos hmem]; exact hx
    · rw [if_neg hmem]
      by_cases hd : isDisabled env rule s
      · simp only [hd, if_true]
        exact List.mem_append_left _ hx
      · simp only [hd, if_false]
        exact List.mem_append_left _ hx

theorem selStep_done_mem (env : PromEnv) (settings : PromqlSeriesSettings) (rule : Rule)
    (entries : List Entry) (l : List VectorSelector) :
    ∀ (st : CheckState) (x : String), x ∈ l.map vsToString →
      x ∈ ((l.foldl (selStep env settings rule entries) st).done) := by
  induction l with
  | nil => intro st x hx; simp at hx
  | cons s rest ih =>
    intro st x hx
    rcases List.mem_cons.mp hx with h | h
    · subst h
      rw [List.foldl_cons]
      apply selStep_done_mono
      unfold selStep
      by_cases hmem : vsToString s ∈ st.done
      · rw [if_pos hmem]; exact hmem
      · rw [if_neg hmem]
        by_cases hd : isDisabled env rule s
        · simp only [hd, if_true]
          exact List.mem_append_right _ (List.mem_singleton_self _)
        · simp only [hd, if_false]
          exact List.mem_append_right _ (List.mem_singleton_self _)
    · exact ih _ x h

theorem foldl_dedup (env : PromEnv) (settings : PromqlSeriesSettings) (rule : Rule)
    (entries : List Entry) (l1 l2 : List VectorSelector) (sel : VectorSelector)
    (h : vsToString sel ∈ l1.map vsToString) (st : CheckState) :
    (l1 ++ sel :: l2).foldl (selStep env settings rule entries) st
      = (l1 ++ l2).foldl (selStep env settings rule entries) st := by
  rw [List.foldl_append, List.foldl_append, List.foldl_cons,
    selStep_skip env settings rule entries _ sel
      (selStep_done_mem env settings rule entries l1 st _ h)]

theorem getSelectorsList_leaves (sels : List VectorSelector) :
    getSelectorsList (sels.map fun s => PromQLNode.mk (some s) []) = sels := by
  induction sels with
  | nil => rfl
  | cons s rest ih =>
    simp only [List.map_cons, getSelectorsList, getSelectors, ih]
    rfl

theorem getSelectors_exprOfSelectors (sels : List VectorSelector) :
    getSelectors (exprOfSelectors sels) = sels := by
  unfold exprOfSelectors
  rw [getSelectors]
  simpa using getSelectorsList_leaves sels

/-- C10: when a selector's string rendering already occurs among the
selectors before it, the whole run — problems and query log alike — is
the run with that later occurrence deleted: duplicates add no queries and
no problems. -/
theorem c10_duplicate_selector_ignored (env : PromEnv) (settings : PromqlSeriesSettings)
    (entries : List Entry) (comments : List Comment)
    (l1 l2 : List VectorSelector) (sel : VectorSelector)
    (h : vsToString sel ∈ l1.map vsToString) :
    seriesCheck env settings (mkRecRule comments (l1 ++ sel :: l2)) entries
      = (let rule := mkRecRule comments (l1 ++ sel :: l2)
         let st := (l1 ++ l2).foldl (selStep env settings rule entries)
           { done := [], problems := [], qlog := [] }
         (st.problems, st.qlog)) := by
  unfold seriesCheck
  dsimp only
  rw [if_neg (by simp [mkRecRule, ruleExpr])]
  have hge : getSelectors (ruleExpr (mkRecRule comments (l1 ++ sel :: l2))).query
      = l1 ++ sel :: l2 := by
    simp only [mkRecRule, ruleExpr]
    exact getSelectors_exprOfSelectors _
  rw [hge, foldl_dedup env settings _ entries l1 l2 sel h]

/-- C10 witness: a rule whose expression mentions `foo{job="x"}` twice. -/
theorem c10_witness :
    seriesCheck envMid defaultSettings (mkRecRule [] [selFooJob, selFooJob]) []
      = (let rule := mkRecRule [] [selFooJob, selFooJob]
         let st := [selFooJob].foldl (selStep envMid defaultSettings rule [])
           { done := [], problems := [], qlog := [] }
         (st.problems, st.qlog)) :=
  c10_duplicate_selector_ignored envMid defaultSettings [] [] [selFooJob] [] selFooJob
    (by simp)

/-- C5 at the failing input: `foo` is present over the whole window (so
the base metric has no gaps), while `foo{job="x"}` has a single range
that starts in the middle of the window — more than one lookback step
after the window start — and ends three hours before the window end.
Step 6b nevertheless emits the disappeared-for-label Bug, because the
source compares the range start against
`Until + (lookbackRange - 1ns) + step` (a point in the future) instead of
the window start. -/
theorem c5_code_at_failing_input :
    ((seriesCheck envMid defaultSettings (mkRecRule [] [selFooJob]) []).1.map
        fun p => (p.severity, p.text))
      = [(Severity.bug,
          "`prom` Prometheus server at http://prom has `foo` metric but doesn't currently have series matching `\x7bjob=\"x\"\x7d`, such series was last present 10800s ago.")]
    ∧ tFrom + defaultSettings.lookbackStep
        < oldest [{ start := tFrom + 302400000000000, stop := tUntil - 10800000000000 }] := by
  decide

end Pint
